import Mathlib

/-!
# Verification of the VM core against its specification

Shallow embedding of the script-visible MovieClip depth operations, the
VM1 `goto` frame arithmetic, the drawing API's gradient-fill entry point,
the VM2 operand-stack opcodes and `findproperty`/`findpropstrict`, the
`Date` adjustment builder, and the `ContextMenuItem` constructor/copy
pair, together with proofs of the specified properties.

Machine integers (`i32`, `u16`) are modelled as `Int` with explicit
wrapping; Rust `Vec` operand stacks are modelled as Lean lists with the
top at the tail, matching `Vec::push`/`Vec::last`.
-/

namespace RuffleSpec

/-! ## 32-bit signed arithmetic (Rust `i32` semantics) -/

/-- Wrap an unbounded integer into the `i32` range `[-2^31, 2^31)`,
the semantics of Rust `i32::wrapping_add`/`wrapping_sub` results. -/
def wrap32 (x : Int) : Int := (x + 2 ^ 31) % 2 ^ 32 - 2 ^ 31

/-- `x` is representable as an `i32`. -/
def i32Range (x : Int) : Prop := -(2 ^ 31) ≤ x ∧ x < 2 ^ 31

instance (x : Int) : Decidable (i32Range x) := by
  unfold i32Range; infer_instance

/-- Rust `i32::saturating_add`. -/
def satAdd32 (a b : Int) : Int := max (-(2 ^ 31)) (min (2 ^ 31 - 1) (a + b))

/-- Rust `i32 as u16`: keep the low 16 bits of the two's-complement form. -/
def toU16 (x : Int) : Int := x % 2 ^ 16

/-! ## AVM1 depth machinery

From `avm1/globals/display_object.rs` and `avm1/globals/movie_clip.rs`.
Depths supplied by script are `i32`s, biased by `AVM_DEPTH_BIAS` with a
wrapping add before being stored on the display object.
-/

/-- `AVM_DEPTH_BIAS` from `display_object.rs`. -/
def AVM_DEPTH_BIAS : Int := 16384

/-- `AVM_MAX_DEPTH` from `display_object.rs`. -/
def AVM_MAX_DEPTH : Int := 2130706428

/-- The biased depth computed by `attach_movie` and
`create_empty_movie_clip`: `depth.coerce_to_i32(..).wrapping_add(AVM_DEPTH_BIAS)`. -/
def biasedDepth (d : Int) : Int := wrap32 (d + AVM_DEPTH_BIAS)

/-- `attach_movie`'s depth gate: after biasing, the call returns
`undefined` without touching the display list when the biased depth is
negative or above `AVM_MAX_DEPTH`; otherwise the child is inserted at the
biased depth (insertion at the given depth is modelled from the spec:
`add_child_from_avm` stores the child at the supplied stored depth, and
the library instantiation of the export name is assumed to succeed — its
failure path is depth-independent and also returns `undefined`).
`none` = no-op, `some depth` = child added with that stored depth. -/
def attachMovie (d : Int) : Option Int :=
  let depth := biasedDepth d
  if depth < 0 ∨ depth > AVM_MAX_DEPTH then none else some depth

/-- `create_empty_movie_clip` performs no depth gate: the child is always
inserted at the biased depth (storage modelled from the spec as in
`attachMovie`). Returns the stored depth of the new child. -/
def createEmptyMovieClip (d : Int) : Int := biasedDepth d

/-- A script-visible value, restricted to what the depth API returns. -/
inductive DepthValue where
  | undefined
  | num (n : Int)
  deriving DecidableEq, Repr

/-- `get_depth` from `display_object.rs`: for SWF version ≥ 6 return
`depth().wrapping_sub(AVM_DEPTH_BIAS)`, otherwise `undefined`. -/
def getDepth (swfVersion : Nat) (storedDepth : Int) : DepthValue :=
  if swfVersion ≥ 6 then .num (wrap32 (storedDepth - AVM_DEPTH_BIAS))
  else .undefined

/-- `remove_movie_clip` from `movie_clip.rs`: reads the stored depth
(`depth().wrapping_sub(0)`), and removes the clip from its parent only
when that depth lies in `[AVM_DEPTH_BIAS, 2_130_706_416)` and the parent
exists and is a movie clip. Returns whether the clip was removed; the
script-visible return value is always `undefined`. -/
def removeMovieClip (storedDepth : Int) (parentIsMovieClip : Bool) :
    Bool × DepthValue :=
  let depth := wrap32 (storedDepth - 0)
  if AVM_DEPTH_BIAS ≤ depth ∧ depth < 2130706416 then
    match parentIsMovieClip with
    | false => (false, .undefined)
    | true => (true, .undefined)
  else (false, .undefined)

/-! ## VM1 `goto_frame` (`gotoAndPlay`/`gotoAndStop`)

From `avm1/globals/movie_clip.rs`. The argument is matched: a `Number`
with zero fractional part performs a direct goto on the receiver clip;
anything else is coerced to a string and resolved as a variable path
naming another clip plus a frame-number string or frame label.
-/

namespace Goto

/-- A VM1 value as far as `goto_frame` inspects it. The `f64` payload of
`Number` is modelled as a rational (every finite double is rational). -/
inductive V1Value where
  | undefined
  | null
  | boolean (b : Bool)
  | num (q : ℚ)
  | str (s : String)
  deriving DecidableEq, Repr

/-- Truncation toward zero, the rounding of Rust `f64 as i64`/ECMA
`ToInteger` on in-range values. -/
def ratTrunc (q : ℚ) : Int := if 0 ≤ q then ⌊q⌋ else ⌈q⌉

/-- Modelled from the spec: `f64_to_wrapping_i32` from
`ecma_conversions.rs` (not under `src/`); the spec prescribes
"truncation with wrapping into 32-bit signed on overflow". -/
def f64ToWrappingI32 (q : ℚ) : Int := wrap32 (ratTrunc q)

/-- Modelled from the spec: the outcome of `resolve_variable_path`
(in `avm1/activation.rs`, not under `src/`) followed by the frame-string
parse / `frame_label_to_number` lookup of `goto_frame`:
either the path is invalid (or names something that is not a movie
clip), or it yields a clip together with a frame-number string (already
run through `f64_to_wrapping_i32`), or a frame label (a `u16`). -/
inductive PathLookup where
  | unresolved
  | numberFrame (f : Int)
  | labelFrame (n : Nat)
  deriving DecidableEq, Repr

/-- The second (string) arm of `goto_frame`'s match: resolve the coerced
string as a variable path; the goto then targets the resolved clip
(never the receiver directly). Returns `(targetsReceiverDirectly, frame)`. -/
def resolvePath (s : String) (lookup : String → PathLookup) :
    Option (Bool × Int) :=
  match lookup s with
  | .unresolved => none
  | .numberFrame f => some (false, f)
  | .labelFrame n => some (false, (n : Int))

/-- `goto_frame`'s `call_frame` computation: a direct goto on the
receiver clip only for a `Number` with zero fractional part
(`n.fract() == 0.0`, i.e. the rational is an integer); every other
value is coerced to a string (`coerce` models `coerce_to_string`) and
resolved as a variable path. -/
def resolveCallFrame (arg : V1Value) (coerce : V1Value → String)
    (lookup : String → PathLookup) : Option (Bool × Int) :=
  match arg with
  | .num q =>
    if q.den = 1 then some (true, f64ToWrappingI32 q)
    else resolvePath (coerce (.num q)) lookup
  | v => resolvePath (coerce v) lookup

/-- The frame arithmetic applied to a resolved `call_frame`:
`frame.wrapping_sub(1)`, `frame.wrapping_add(scene_offset)`,
`frame.saturating_add(1)`; the goto runs only when the result is
positive, and the frame is passed on as a `u16` (`frame as u16`).
`none` = no frame change. -/
def gotoApplyFrame (f : Int) (sceneOffset : Int) : Option Int :=
  let f1 := wrap32 (f - 1)
  let f2 := wrap32 (f1 + sceneOffset)
  let f3 := satAdd32 f2 1
  if f3 > 0 then some (toU16 f3) else none

/-- Full `goto_frame` for `gotoAndPlay`/`gotoAndStop` (scene offset 0):
`some (targetsReceiver, frame)` when a goto is performed. -/
def gotoFrame (arg : V1Value) (coerce : V1Value → String)
    (lookup : String → PathLookup) : Option (Bool × Int) :=
  (resolveCallFrame arg coerce lookup).bind fun t =>
    (gotoApplyFrame t.2 0).map fun u => (t.1, u)

end Goto

/-! ## `MovieClip.beginGradientFill`

From `begin_gradient_fill` in `avm1/globals/movie_clip.rs`. Arguments
are modelled post-coercion (`coerce_to_string`, `coerce_to_f64`,
`coerce_to_u32` live in `avm1/value.rs`, outside `src/`; the spec fixes
their results on the inputs used here). Finite `f64`s are modelled as
rationals.
-/

namespace Gradient

/-- Gradient spread mode (`swf::GradientSpread`). -/
inductive Spread where
  | pad | reflect | repeat
  deriving DecidableEq, Repr

/-- Gradient interpolation mode (`swf::GradientInterpolation`). -/
inductive Interp where
  | rgb | linearRGB
  deriving DecidableEq, Repr

/-- One gradient record as stored: ratio byte and colour
(24-bit rgb plus alpha byte), `swf::GradientRecord`. -/
structure GradRecord where
  ratio : Int
  rgb : Int
  alphaByte : Int
  deriving DecidableEq, Repr

/-- A stored gradient (`swf::Gradient`, matrix elided: only its
presence as an argument matters to the control flow). -/
structure SwfGradient where
  records : List GradRecord
  spread : Spread
  interp : Interp
  deriving DecidableEq, Repr

/-- The clip's fill style as set by the drawing API. -/
inductive FillStyle where
  | color (rgb : Int) (alpha : Int)
  | linearGradient (g : SwfGradient)
  | radialGradient (g : SwfGradient)
  | focalGradient (g : SwfGradient) (focalPoint : ℚ)
  deriving DecidableEq, Repr

/-- The argument vector of `begin_gradient_fill`, each argument given
post-coercion, `none` meaning the argument was absent. -/
structure GradArgs where
  method : Option String
  colors : Option (List Int)
  alphas : Option (List ℚ)
  ratios : Option (List ℚ)
  matrix : Option Unit
  spread : Option String
  interp : Option String
  focal : Option ℚ
  deriving Repr

/-- `ratios[i].coerce_to_f64(..)?.min(255.0).max(0.0)`. -/
def clampRatio (q : ℚ) : ℚ := max 0 (min 255 q)

/-- `alphas[i].coerce_to_f64(..)?.min(100.0).max(0.0)`. -/
def clampAlpha (q : ℚ) : ℚ := max 0 (min 100 q)

/-- The record-building loop: ratio clamped then cast `as u8`; colour
built from the `u32` rgb and the alpha byte `(alpha / 100.0 * 255.0) as u8`
after clamping the alpha percentage. -/
def buildRecords : List Int → List ℚ → List ℚ → List GradRecord
  | c :: cs, a :: al, r :: rl =>
    { ratio := Goto.ratTrunc (clampRatio r)
      rgb := c
      alphaByte := Goto.ratTrunc (clampAlpha a / 100 * 255) } :: buildRecords cs al rl
  | _, _, _ => []

/-- The spread-mode parse of `args.get(5)`. -/
def parseSpread : Option String → Spread
  | some "reflect" => .reflect
  | some "repeat" => .repeat
  | _ => .pad

/-- The interpolation parse of `args.get(6)`. -/
def parseInterp : Option String → Interp
  | some "linearRGB" => .linearRGB
  | _ => .rgb

/-- `begin_gradient_fill`: given the clip's current fill style and the
arguments, returns the new fill style and whether a warning was logged.
The script-visible return value is `undefined` on every path.
When any of the first five arguments is absent the fill style is
cleared (`set_fill_style(.., None)`); with all five present, arrays of
unequal length log a warning and leave the fill unchanged; an
unrecognized fill type likewise warns and leaves the fill unchanged. -/
def beginGradientFill (fill : Option FillStyle) (a : GradArgs) :
    Option FillStyle × Bool :=
  match a.method, a.colors, a.alphas, a.ratios, a.matrix with
  | some method, some colors, some alphas, some ratios, some _ =>
    if colors.length ≠ alphas.length ∨ colors.length ≠ ratios.length then
      (fill, true)
    else
      let g : SwfGradient :=
        { records := buildRecords colors alphas ratios
          spread := parseSpread a.spread
          interp := parseInterp a.interp }
      match method with
      | "linear" => (some (.linearGradient g), false)
      | "radial" =>
        match a.focal with
        | some fp => (some (.focalGradient g fp), false)
        | none => (some (.radialGradient g), false)
      | _ => (fill, true)
  | _, _, _, _, _ => (none, false)

end Gradient

/-! ## VM2 operand stack opcodes

From `avm2/activation.rs`. The shared operand stack lives on the `Avm2`
struct (outside `src/`); `op_dup` in `src/` reads `self.avm2.stack.last()`,
so the stack is a `Vec` — modelled as a list with the top at the tail,
`push` appending (modelled from the spec's operand-stack description).
-/

namespace Avm2Stack

/-- VM2 values, restricted to what the modelled opcodes push. `nan` is
`Value::Number(f64::NAN)`. -/
inductive V2Value where
  | undefined
  | null
  | boolean (b : Bool)
  | num (q : ℚ)
  | nan
  deriving DecidableEq, Repr

/-- `Avm2::push`: `Vec::push`, appending at the tail. -/
def push (s : List V2Value) (v : V2Value) : List V2Value := s ++ [v]

/-- `Avm2::pop`: `Vec::pop`, removing the last element when present
(modelled from the spec; the operand stack is a plain `Vec`). -/
def pop (s : List V2Value) : List V2Value := s.dropLast

/-- `op_dup`: `push(stack.last().cloned().unwrap_or(Value::Undefined))`;
the handler returns `Ok(FrameControl::Continue)` on every input, so the
result is always `.ok`. -/
def opDup (s : List V2Value) : Except String (List V2Value) :=
  .ok (push s (s.getLast?.getD .undefined))

/-- The stack-only opcode subset of `do_next_opcode`
(`op_push_byte` .. `op_push_undefined`, `op_pop`, `op_dup`). -/
inductive Op where
  | pushByte (v : Nat)
  | pushShort (v : Nat)
  | pushTrue
  | pushFalse
  | pushNull
  | pushUndefined
  | pushNaN
  | pop
  | dup
  deriving DecidableEq, Repr

/-- One dispatch step of `do_next_opcode` restricted to the stack
opcodes; each handler manipulates the operand stack exactly as in the
source. -/
def step (s : List V2Value) : Op → List V2Value
  | .pushByte v => push s (.num v)
  | .pushShort v => push s (.num v)
  | .pushTrue => push s (.boolean true)
  | .pushFalse => push s (.boolean false)
  | .pushNull => push s .null
  | .pushUndefined => push s .undefined
  | .pushNaN => push s .nan
  | .pop => pop s
  | .dup => push s (s.getLast?.getD .undefined)

/-- `run_actions`' dispatch loop over a straight-line opcode sequence. -/
def exec (s : List V2Value) : List Op → List V2Value
  | [] => s
  | op :: rest => exec (step s op) rest

/-- The `max_stack` field of an ABC method body together with its code. -/
structure MethodBody where
  maxStack : Nat
  code : List Op
  deriving Repr

/-- The operand-stack depth after an opcode, as a function of the depth
before it: every modelled opcode except `pop` pushes exactly one value
(`dup` pushes even on an empty stack); `pop` removes one when present. -/
def heightStep (d : Nat) : Op → Nat
  | .pop => d - 1
  | _ => d + 1

/-- The sequence of operand-stack depths after each instruction of a
straight-line program, starting from depth `d`. -/
def heights (d : Nat) : List Op → List Nat
  | [] => []
  | op :: rest => heightStep d op :: heights (heightStep d op) rest

/-- The static stack requirement of a straight-line program: the largest
intermediate depth reached when starting from an empty stack. -/
def requiredStack (code : List Op) : Nat := (heights 0 code).foldr max 0

end Avm2Stack

/-! ## VM2 `findproperty` / `findpropstrict`

From `op_find_property` / `op_find_prop_strict` in `avm2/activation.rs`.
`Scope::find` (`avm2/scope.rs`) is outside `src/` and is modelled from
the spec: walk the scope stack innermost-to-outermost; a multiname
resolves against a non-`with` scope's object iff the object has a
declared trait by that name, and against a `with` scope's object iff it
has any property by that name.
-/

namespace FindProp

/-- A scope object: its declared trait names and its full property-name
set (multiname resolution is modelled on local names; the namespace-set
matching is folded into membership in these lists). -/
structure SObj where
  traits : List String
  props : List String
  deriving DecidableEq, Repr

/-- A scope-stack entry `(object, is_with)`. -/
structure ScopeFrame where
  obj : SObj
  isWith : Bool
  deriving DecidableEq, Repr

/-- Whether a multiname resolves against one scope frame. -/
def resolvesAgainst (f : ScopeFrame) (name : String) : Bool :=
  if f.isWith then f.obj.props.contains name else f.obj.traits.contains name

/-- Modelled from the spec: `Scope::find`, innermost scope first. The
scope stack is listed innermost-first. -/
def find : List ScopeFrame → String → Option SObj
  | [], _ => none
  | f :: rest, n => if resolvesAgainst f n then some f.obj else find rest n

/-- The value pushed by the find opcodes. -/
inductive FoundValue where
  | undefined
  | object (o : SObj)
  deriving DecidableEq, Repr

/-- `op_find_property`: push the found scope object, or `undefined`
when no scope resolves the multiname
(`result.map(|o| o.into()).unwrap_or(Value::Undefined)`). -/
def opFindProperty (scopes : List ScopeFrame) (name : String) : FoundValue :=
  match find scopes name with
  | some o => .object o
  | none => .undefined

/-- `op_find_prop_strict`: push the found scope object, or fail with a
"Property does not exist" error when no scope resolves the multiname. -/
def opFindPropStrict (scopes : List ScopeFrame) (name : String) :
    Except String FoundValue :=
  match find scopes name with
  | some o => .ok (.object o)
  | none => .error ("Property does not exist: " ++ name)

end FindProp

/-! ## VM2 `Date` adjustment builder

From `avm2/globals/date.rs`. Finite `f64`s are modelled as rationals;
the constructor chain through `chrono` (timezone/calendar construction)
is an external crate and is abstracted as a function argument `mk`
taking the computed year, month and duration (in milliseconds).
-/

namespace DateNs

/-- An `f64` as the adjustment logic distinguishes it: finite (as a
rational) or non-finite (NaN or an infinity). -/
inductive FNum where
  | fin (q : ℚ)
  | nonFinite
  deriving DecidableEq, Repr

/-- Rust `i64` saturation bounds for `f64 as i64`. -/
def satI64 (x : Int) : Int := max (-(2 ^ 63)) (min (2 ^ 63 - 1) x)

/-- Rust `f64 as i64` as used on adjustment fields: truncation toward
zero with saturation. The non-finite arm is reached only in `month_rem`
on a value that makes the whole adjustment abort, so its result (`0`,
the NaN cast) is never observable. -/
def FNum.toI64 : FNum → Int
  | .fin q => satI64 (Goto.ratTrunc q)
  | .nonFinite => 0

/-- A VM2 value as far as the `Date` setters inspect it. -/
inductive DVal where
  | undefined
  | num (n : FNum)
  deriving DecidableEq, Repr

/-- Modelled from the spec: `coerce_to_number` (`avm2/value.rs`, outside
`src/`) is ECMA-style `to_number`; `undefined` coerces to NaN. -/
def coerceToNumber : DVal → FNum
  | .undefined => .nonFinite
  | .num n => n

/-- The `DateAdjustment` builder state: for each field, `none` = never
specified (use the current value), `some none` is unused by the
builders, `some (some v)` = specified as the number `v`; plus the
`ignore_next` flag. -/
structure DateAdjustment where
  year : Option (Option FNum) := none
  month : Option (Option FNum) := none
  day : Option (Option FNum) := none
  hour : Option (Option FNum) := none
  minute : Option (Option FNum) := none
  second : Option (Option FNum) := none
  millisecond : Option (Option FNum) := none
  ignoreNext : Bool := false
  deriving DecidableEq, Repr

/-- The `month` builder: skipped entirely once `ignore_next` is set; an
absent argument clears the field and sets `ignore_next`. -/
def DateAdjustment.setMonthField (adj : DateAdjustment) (value : Option DVal) :
    DateAdjustment :=
  if adj.ignoreNext then adj
  else
    match value with
    | some v => { adj with month := some (some (coerceToNumber v)) }
    | none => { adj with month := none, ignoreNext := true }

/-- The `day` builder, same shape as the `month` builder. -/
def DateAdjustment.setDayField (adj : DateAdjustment) (value : Option DVal) :
    DateAdjustment :=
  if adj.ignoreNext then adj
  else
    match value with
    | some v => { adj with day := some (some (coerceToNumber v)) }
    | none => { adj with day := none, ignoreNext := true }

/-- `check_value`: a specified finite value is truncated to `i64`; a
specified non-finite value aborts (`None`); an unspecified field falls
back to the current component. -/
def checkValue (specified : Option (Option FNum)) (current : Int) : Option Int :=
  match specified with
  | some (some (.fin q)) => some (satI64 (Goto.ratTrunc q))
  | some _ => none
  | none => some current

/-- `check_mapped_value`: as `checkValue`, but a specified finite value
is passed through `map`. -/
def checkMappedValue (specified : Option (Option FNum)) (map : Int → Int)
    (current : Int) : Option Int :=
  match specified with
  | some (some (.fin q)) => some (map (satI64 (Goto.ratTrunc q)))
  | some _ => none
  | none => some current

/-- The current instant, broken down in the local timezone exactly as
`calculate` reads it from `chrono` accessors. -/
structure DateRecord where
  year : Int
  month0 : Int
  day : Int
  hour : Int
  minute : Int
  second : Int
  millis : Int
  deriving DecidableEq, Repr

/-- `DateAdjustment::calculate`: the month is reduced `rem_euclid 12`
with the overflow `div_euclid 12` added (wrapping, then truncated to
`i32`) onto the year; any specified non-finite field aborts the whole
computation; the surviving components are folded into a duration in
milliseconds and handed to the abstracted `chrono` constructor `mk`. -/
def calculate (adj : DateAdjustment) (cur : DateRecord)
    (mk : Int → Int → Int → Option Int) : Option Int := do
  let monthRem := (((adj.month.join).map FNum.toI64).getD 0).fdiv 12
  let month ← checkMappedValue adj.month (fun v => v.emod 12) cur.month0
  let year0 ← checkValue adj.year cur.year
  let year := wrap32 (year0 + monthRem)
  let day ← checkValue adj.day cur.day
  let hour ← checkValue adj.hour cur.hour
  let minute ← checkValue adj.minute cur.minute
  let second ← checkValue adj.second cur.second
  let millisecond ← checkValue adj.millisecond cur.millis
  let duration := (day - 1) * 86400000 + hour * 3600000 + minute * 60000
    + second * 1000 + millisecond
  mk year month duration

/-- `DateAdjustment::apply`: an invalid date (no stored instant) stays
invalid; otherwise `calculate` runs on the current instant. The stored
instant is replaced by the result, and the script-visible return value
is the timestamp or NaN. -/
def applyAdj (adj : DateAdjustment) (state : Option DateRecord)
    (mk : Int → Int → Int → Option Int) : Option Int × FNum :=
  let date :=
    match state with
    | some cur => calculate adj cur mk
    | none => none
  (date, match date with | some t => .fin t | none => .nonFinite)

/-- `set_month`: feed `args[0]` to the month builder and `args[1]` to
the day builder, then apply. Returns the new stored instant and the
script-visible return value. -/
def setMonth (state : Option DateRecord) (args : List DVal)
    (mk : Int → Int → Int → Option Int) : Option Int × FNum :=
  let adj := DateAdjustment.setDayField
    (DateAdjustment.setMonthField {} (args.get? 0)) (args.get? 1)
  applyAdj adj state mk

end DateNs

/-! ## AVM1 `ContextMenuItem`

From `avm1/globals/context_menu_item.rs`. The property table is
modelled from the spec (`ScriptObject` lives outside `src/`): an
insertion-ordered map where a read of an absent name yields `undefined`.
`as_bool` on strings is version-sensitive; it is abstracted as the
function argument `strCase`.
-/

namespace CtxMenu

/-- A VM1 value as far as `ContextMenuItem` stores and reads them. -/
inductive CVal where
  | undefined
  | boolean (b : Bool)
  | strV (s : String)
  | objV (id : Nat)
  deriving DecidableEq, Repr

/-- Modelled from the spec: `Value::as_bool` (`avm1/value.rs`, outside
`src/`): undefined → false, booleans are themselves, objects → true,
strings are version-sensitive (abstracted). -/
def asBool (strCase : String → Bool) : CVal → Bool
  | .undefined => false
  | .boolean b => b
  | .strV s => strCase s
  | .objV _ => true

/-- Modelled from the spec: `coerce_to_string` pretty-printing, on the
values this built-in stores. -/
def coerceStr : CVal → String
  | .undefined => "undefined"
  | .boolean b => if b then "true" else "false"
  | .strV s => s
  | .objV _ => "[object Object]"

/-- An object's own property table; a later `set` shadows an earlier
one (reads take the most recent entry). -/
def PropMap := List (String × CVal)

/-- `this.set(name, value, ..)`: plain own-table write. -/
def setProp (m : PropMap) (k : String) (v : CVal) : PropMap := (k, v) :: m

/-- Property read: most recent entry for the name, `undefined` when
absent (the spec's `get` fails silently). -/
def getProp (m : PropMap) (k : String) : CVal :=
  match m.find? (fun e => e.1 == k) with
  | some e => e.2
  | none => .undefined

/-- The `ContextMenuItem` constructor: caption coerced to a string,
optional callback stored under `onSelect`, and the three flags stored —
the separator flag under the name `separatorBefore`. -/
def construct (caption : String) (callback : Option Nat)
    (sepArg enArg visArg : Option CVal) (strCase : String → Bool) : PropMap :=
  let m : PropMap := []
  let m := setProp m "caption" (.strV caption)
  let m :=
    match callback with
    | some c => setProp m "onSelect" (.objV c)
    | none => m
  let m := setProp m "separatorBefore"
    (.boolean (asBool strCase (sepArg.getD (.boolean false))))
  let m := setProp m "enabled"
    (.boolean (asBool strCase (enArg.getD (.boolean true))))
  let m := setProp m "visible"
    (.boolean (asBool strCase (visArg.getD (.boolean true))))
  m

/-- `copy`: read the fields back — the separator flag under the
(different) name `separator_before` — and invoke the constructor with
them. `freshId` is the object the callback value coerces to when it is
not already an object (VM1 `coerce_to_object` makes a fresh object). -/
def copy (m : PropMap) (strCase : String → Bool) (freshId : Nat) : PropMap :=
  let caption := coerceStr (getProp m "caption")
  let callback :=
    match getProp m "onSelect" with
    | .objV n => n
    | _ => freshId
  let enabled := asBool strCase (getProp m "enabled")
  let separatorBefore := asBool strCase (getProp m "separator_before")
  let visible := asBool strCase (getProp m "visible")
  construct caption (some callback) (some (.boolean separatorBefore))
    (some (.boolean enabled)) (some (.boolean visible)) strCase

end CtxMenu

/-! ## Helper lemmas -/

theorem wrap32_eq_self {x : Int} (h : i32Range x) : wrap32 x = x := by
  obtain ⟨h1, h2⟩ := h
  unfold wrap32
  omega

theorem wrap32_range (x : Int) : i32Range (wrap32 x) := by
  unfold wrap32 i32Range
  constructor <;> omega

/-- Subtracting the bias back out of a wrapped biased depth recovers the
original `i32`: `wrapping_add b` then `wrapping_sub b` is the identity. -/
theorem wrap32_add_sub (d b : Int) (h : i32Range d) :
    wrap32 (wrap32 (d + b) - b) = d := by
  obtain ⟨h1, h2⟩ := h
  unfold wrap32
  omega

/-- `satAdd32` as a chain of conditionals. -/
theorem satAdd32_eq (a b : Int) :
    satAdd32 a b =
      if a + b < -(2 ^ 31) then -(2 ^ 31)
      else if a + b > 2 ^ 31 - 1 then 2 ^ 31 - 1
      else a + b := by
  unfold satAdd32
  rcases le_total (a + b) (-(2 ^ 31)) with h | h <;>
    rcases le_total (a + b) (2 ^ 31 - 1) with h' | h' <;>
      simp [max_def, min_def] <;> split_ifs <;> omega

namespace Avm2Stack

theorem length_step (s : List V2Value) (op : Op) :
    (step s op).length = heightStep s.length op := by
  cases op <;> simp [step, push, pop, heightStep]

theorem le_foldr_max {l : List Nat} {x : Nat} (h : x ∈ l) :
    x ≤ l.foldr max 0 := by
  induction l with
  | nil => cases h
  | cons y ys ih =>
    rcases List.mem_cons.mp h with rfl | h'
    · exact le_max_left _ _
    · exact le_trans (ih h') (le_max_right _ _)

/-- If every simulated depth along a program is at most `M` and the
starting stack is within `M`, then every executed prefix leaves the
operand stack within `M`. -/
theorem exec_prefix_le (M : Nat) :
    ∀ (pre post : List Op) (s : List V2Value),
      (∀ h ∈ heights s.length (pre ++ post), h ≤ M) →
      s.length ≤ M → (exec s pre).length ≤ M := by
  intro pre
  induction pre with
  | nil => intro post s _ hs; exact hs
  | cons op pre' ih =>
    intro post s hall hs
    have hhead : heightStep s.length op ≤ M := by
      exact hall _ (by simp [heights])
    have hstep : (step s op).length = heightStep s.length op :=
      length_step s op
    refine ih post (step s op) ?_ (by rw [hstep]; exact hhead)
    intro h hmem
    refine hall h ?_
    simp only [List.cons_append, heights]
    rw [hstep] at hmem
    exact List.mem_cons_of_mem _ hmem

end Avm2Stack

namespace FindProp

theorem find_eq_none {scopes : List ScopeFrame} {name : String}
    (h : ∀ f ∈ scopes, resolvesAgainst f name = false) :
    find scopes name = none := by
  induction scopes with
  | nil => rfl
  | cons f rest ih =>
    have hf : resolvesAgainst f name = false := h f (by simp)
    simp only [find, hf]
    exact ih fun g hg => h g (List.mem_cons_of_mem _ hg)

end FindProp

namespace Gradient

theorem clampRatio_bounds (q : ℚ) : 0 ≤ clampRatio q ∧ clampRatio q ≤ 255 := by
  unfold clampRatio
  constructor
  · exact le_max_left _ _
  · exact max_le (by norm_num) (min_le_left _ _)

theorem clampAlpha_bounds (q : ℚ) : 0 ≤ clampAlpha q ∧ clampAlpha q ≤ 100 := by
  unfold clampAlpha
  constructor
  · exact le_max_left _ _
  · exact max_le (by norm_num) (min_le_left _ _)

theorem ratTrunc_bounds {q lo hi : ℚ} (h0 : 0 ≤ lo) (hq : lo ≤ q) (hq' : q ≤ hi) :
    (0 : Int) ≤ Goto.ratTrunc q ∧ (Goto.ratTrunc q : ℚ) ≤ hi := by
  have hq0 : 0 ≤ q := le_trans h0 hq
  unfold Goto.ratTrunc
  rw [if_pos hq0]
  refine ⟨Int.floor_nonneg.mpr hq0, le_trans ?_ hq'⟩
  exact Int.floor_le q

/-- Every record built by the gradient loop stores a ratio byte in
`[0, 255]` and an alpha byte in `[0, 255]` (from an alpha percentage
clamped to `[0, 100]`). -/
theorem buildRecords_bounds :
    ∀ (cs : List Int) (al rl : List ℚ) (r : GradRecord),
      r ∈ buildRecords cs al rl →
      (0 ≤ r.ratio ∧ r.ratio ≤ 255) ∧ (0 ≤ r.alphaByte ∧ r.alphaByte ≤ 255) := by
  intro cs
  induction cs with
  | nil => intro al rl r hr; simp [buildRecords] at hr
  | cons c cs' ih =>
    intro al rl r hr
    match al, rl with
    | [], _ => simp [buildRecords] at hr
    | _ :: _, [] => simp [buildRecords] at hr
    | a :: al', q :: rl' =>
      simp only [buildRecords, List.mem_cons] at hr
      rcases hr with rfl | hr'
      · constructor
        · have hb := clampRatio_bounds q
          have := ratTrunc_bounds (le_refl (0 : ℚ)) hb.1 hb.2
          exact ⟨this.1, by exact_mod_cast this.2⟩
        · have hb := clampAlpha_bounds a
          have h1 : (0 : ℚ) ≤ clampAlpha a / 100 * 255 :=
            mul_nonneg (div_nonneg hb.1 (by norm_num)) (by norm_num)
          have h2 : clampAlpha a / 100 * 255 ≤ 255 := by
            nlinarith [hb.1, hb.2]
          have := ratTrunc_bounds (le_refl (0 : ℚ)) h1 h2
          exact ⟨this.1, by exact_mod_cast this.2⟩
      · exact ih al' rl' r hr'

end Gradient

/-! ## Claim theorems -/

/-- Claim C1 (amended): `attachMovie` biases the script depth with a
wrapping add of `AVM_DEPTH_BIAS` *before* the range gate, so for `i32`
depths `d` a child is attached (at stored depth `d + 16384`) exactly
when `-16384 ≤ d ≤ 2_130_690_044`; outside that range the call is a
no-op. -/
theorem attach_movie_depth_gate (d : Int) (hd : i32Range d) :
    attachMovie d =
      (if -16384 ≤ d ∧ d ≤ 2130690044 then some (d + AVM_DEPTH_BIAS) else none) := by
  obtain ⟨h1, h2⟩ := hd
  simp only [attachMovie, biasedDepth, wrap32, AVM_DEPTH_BIAS, AVM_MAX_DEPTH]
  split_ifs with hc hs hs <;> first
    | rfl
    | (exfalso; omega)
    | (simp only [Option.some.injEq]; omega)

/-- Witness for C1: attaching at script depth `3` stores depth
`3 + 16384`. -/
theorem attach_movie_depth_gate_witness :
    attachMovie 3 =
      (if (-16384 : Int) ≤ 3 ∧ (3 : Int) ≤ 2130690044
       then some (3 + AVM_DEPTH_BIAS) else none) :=
  attach_movie_depth_gate 3 (by constructor <;> norm_num)

/-- Counterexample to C1 as stated: the claim says every `d < 0` is a
no-op, but script depth `-1` (biased to `16383`, which passes the gate)
attaches a child at stored depth `16383`. -/
theorem attach_movie_negative_depth_attaches :
    (-1 : Int) < 0 ∧ attachMovie (-1) = some 16383 := by
  constructor
  · norm_num
  · simp only [attachMovie, biasedDepth, wrap32, AVM_DEPTH_BIAS, AVM_MAX_DEPTH]
    norm_num

/-- Claim C4: `createEmptyMovieClip` stores the biased depth, and
`getDepth` (SWF ≥ 6) undoes the bias: it returns exactly the script
depth `d`; for depths that do not overflow the bias the stored depth is
literally `d + 16384` (so script depth `3` stores `16387`). -/
theorem create_empty_movie_clip_depth_bias (v : Nat) (hv : 6 ≤ v) (d : Int)
    (hd : i32Range d) :
    getDepth v (createEmptyMovieClip d) = .num d ∧
      (d ≤ 2147467263 → createEmptyMovieClip d = d + AVM_DEPTH_BIAS) := by
  constructor
  · unfold getDepth createEmptyMovieClip biasedDepth
    rw [if_pos hv, wrap32_add_sub d AVM_DEPTH_BIAS hd]
  · intro hle
    unfold createEmptyMovieClip biasedDepth
    refine wrap32_eq_self ⟨?_, ?_⟩
    · have := hd.1; unfold AVM_DEPTH_BIAS; omega
    · unfold AVM_DEPTH_BIAS; omega

/-- Witness for C4: `createEmptyMovieClip("a", 3)` stores depth
`3 + 16384 = 16387` and `getDepth()` returns `3` at SWF version 6. -/
theorem create_empty_movie_clip_depth_bias_witness :
    getDepth 6 (createEmptyMovieClip 3) = .num 3 ∧
      createEmptyMovieClip 3 = 3 + AVM_DEPTH_BIAS :=
  ⟨(create_empty_movie_clip_depth_bias 6 (by norm_num) 3
      (by constructor <;> norm_num)).1,
   (create_empty_movie_clip_depth_bias 6 (by norm_num) 3
      (by constructor <;> norm_num)).2 (by norm_num)⟩

/-- Claim C5: `removeMovieClip` removes the clip exactly when its stored
depth is in `[16384, 2_130_706_416)` and its parent is a movie clip, and
always returns `undefined`. -/
theorem remove_movie_clip_depth_range (depth : Int) (hd : i32Range depth)
    (parent : Bool) :
    ((removeMovieClip depth parent).1 = true ↔
      (AVM_DEPTH_BIAS ≤ depth ∧ depth < 2130706416 ∧ parent = true)) ∧
      (removeMovieClip depth parent).2 = .undefined := by
  have hwrap : wrap32 (depth - 0) = depth := by
    rw [sub_zero]; exact wrap32_eq_self hd
  unfold removeMovieClip
  simp only [hwrap]
  split_ifs with hc
  · cases parent <;> simp_all
  · cases parent <;> simp_all

/-- Witness for C5: a dynamically created clip at stored depth `16387`
with a movie-clip parent is removed, and the call returns `undefined`. -/
theorem remove_movie_clip_depth_range_witness :
    ((removeMovieClip 16387 true).1 = true ↔
      (AVM_DEPTH_BIAS ≤ (16387 : Int) ∧ (16387 : Int) < 2130706416 ∧ true = true)) ∧
      (removeMovieClip 16387 true).2 = .undefined :=
  remove_movie_clip_depth_range 16387 (by constructor <;> norm_num) true

/-- Claim C6 (amended): a resolved goto frame `f ≤ 0` leaves the frame
unchanged for every `i32` value except `f = -2^31`, where the wrapping
`-1` / saturating `+1` adjustment wraps to `2^31 - 1` and a goto to
`u16` frame `65535` runs; a direct goto happens only for a `Number`
argument with zero fractional part, and a fractional `Number` takes the
coerce-to-string variable-path route. -/
theorem goto_frame_nonpositive_no_goto (f : Int) (hf : i32Range f)
    (hle : f ≤ 0) (hne : f ≠ -(2 ^ 31)) :
    Goto.gotoApplyFrame f 0 = none ∧
      (∀ (arg : Goto.V1Value) (coerce : Goto.V1Value → String)
        (lookup : String → Goto.PathLookup) (t : Int),
        Goto.resolveCallFrame arg coerce lookup = some (true, t) →
        ∃ q : ℚ, arg = .num q ∧ q.den = 1 ∧ t = Goto.f64ToWrappingI32 q) ∧
      (∀ (q : ℚ) (coerce : Goto.V1Value → String)
        (lookup : String → Goto.PathLookup),
        q.den ≠ 1 →
        Goto.resolveCallFrame (.num q) coerce lookup =
          Goto.resolvePath (coerce (.num q)) lookup) := by
  obtain ⟨h1, h2⟩ := hf
  refine ⟨?_, ?_, ?_⟩
  · simp only [Goto.gotoApplyFrame, satAdd32_eq, wrap32, toU16]
    split_ifs <;> first | rfl | (exfalso; omega)
  · intro arg coerce lookup t hres
    cases arg with
    | num q =>
      by_cases hden : q.den = 1
      · refine ⟨q, rfl, hden, ?_⟩
        simp only [Goto.resolveCallFrame, if_pos hden, Option.some.injEq,
          Prod.mk.injEq] at hres
        exact hres.2.symm
      · exfalso
        simp only [Goto.resolveCallFrame, if_neg hden, Goto.resolvePath] at hres
        rcases hlk : lookup (coerce (.num q)) with _ | g | n <;>
          rw [hlk] at hres <;> simp at hres
    | undefined =>
      exfalso
      simp only [Goto.resolveCallFrame, Goto.resolvePath] at hres
      rcases hlk : lookup (coerce .undefined) with _ | g | n <;>
        rw [hlk] at hres <;> simp at hres
    | null =>
      exfalso
      simp only [Goto.resolveCallFrame, Goto.resolvePath] at hres
      rcases hlk : lookup (coerce .null) with _ | g | n <;>
        rw [hlk] at hres <;> simp at hres
    | boolean b =>
      exfalso
      simp only [Goto.resolveCallFrame, Goto.resolvePath] at hres
      rcases hlk : lookup (coerce (.boolean b)) with _ | g | n <;>
        rw [hlk] at hres <;> simp at hres
    | str s =>
      exfalso
      simp only [Goto.resolveCallFrame, Goto.resolvePath] at hres
      rcases hlk : lookup (coerce (.str s)) with _ | g | n <;>
        rw [hlk] at hres <;> simp at hres
  · intro q coerce lookup hden
    simp only [Goto.resolveCallFrame, if_neg hden]

/-- Witness for C6: a resolved frame of `-5` produces no frame change. -/
theorem goto_frame_nonpositive_witness : Goto.gotoApplyFrame (-5) 0 = none :=
  (goto_frame_nonpositive_no_goto (-5) (by constructor <;> norm_num)
    (by norm_num) (by norm_num)).1

/-- Counterexample to C6 as stated: the claim says every resolved frame
`≤ 0` causes no frame change, but `f = -2^31` wraps through the
adjustment arithmetic and performs a goto to `u16` frame `65535`. -/
theorem goto_frame_min_int_wraps :
    (-(2 ^ 31) : Int) ≤ 0 ∧ Goto.gotoApplyFrame (-(2 ^ 31)) 0 = some 65535 := by
  constructor
  · norm_num
  · decide

/-- Claim C7 (amended): with the fill type, colour/alpha/ratio arrays
and matrix all supplied, arrays of unequal length make
`beginGradientFill` warn and leave the fill style unchanged (returning
`undefined`); a supplied equal-length triple is clamped record-wise,
the ratio to `[0, 255]` and the alpha percentage to `[0, 100]`. -/
theorem begin_gradient_fill_length_check_and_clamps
    (fill : Option Gradient.FillStyle) (method : String)
    (colors : List Int) (alphas ratios : List ℚ)
    (spr itp : Option String) (foc : Option ℚ)
    (hlen : colors.length ≠ alphas.length ∨ colors.length ≠ ratios.length) :
    Gradient.beginGradientFill fill
        { method := some method, colors := some colors, alphas := some alphas,
          ratios := some ratios, matrix := some (), spread := spr,
          interp := itp, focal := foc } = (fill, true) ∧
      (∀ q : ℚ, 0 ≤ Gradient.clampRatio q ∧ Gradient.clampRatio q ≤ 255 ∧
        0 ≤ Gradient.clampAlpha q ∧ Gradient.clampAlpha q ≤ 100) ∧
      (∀ (cs : List Int) (al rl : List ℚ) (r : Gradient.GradRecord),
        r ∈ Gradient.buildRecords cs al rl → 0 ≤ r.ratio ∧ r.ratio ≤ 255) := by
  refine ⟨?_, ?_, ?_⟩
  · simp only [Gradient.beginGradientFill]
    rw [if_pos hlen]
  · intro q
    exact ⟨(Gradient.clampRatio_bounds q).1, (Gradient.clampRatio_bounds q).2,
      (Gradient.clampAlpha_bounds q).1, (Gradient.clampAlpha_bounds q).2⟩
  · intro cs al rl r hr
    exact (Gradient.buildRecords_bounds cs al rl r hr).1

/-- Witness for C7: the spec's example arrays (2 colours, 1 alpha,
2 ratios) with a matrix supplied: warning, fill unchanged. -/
theorem begin_gradient_fill_length_check_witness :
    Gradient.beginGradientFill (some (.color 0 255))
        { method := some "linear", colors := some [16711680, 65280],
          alphas := some [100], ratios := some [0, 255], matrix := some (),
          spread := none, interp := none, focal := none } =
      (some (.color 0 255), true) :=
  (begin_gradient_fill_length_check_and_clamps (some (.color 0 255)) "linear"
    [16711680, 65280] [100] [0, 255] none none none (by norm_num)).1

/-- Counterexample to C7 as stated: the same unequal-length call
without a matrix argument takes the missing-argument branch, which
clears the fill style (a change) and logs no warning. -/
theorem begin_gradient_fill_missing_matrix_clears_fill :
    Gradient.beginGradientFill (some (.color 0 255))
        { method := some "linear", colors := some [16711680, 65280],
          alphas := some [100], ratios := some [0, 255], matrix := none,
          spread := none, interp := none, focal := none } = (none, false) ∧
      (none : Option Gradient.FillStyle) ≠ some (.color 0 255) := by
  exact ⟨rfl, by simp⟩

/-- Claim C3 (amended): the interpreter never consults `max_stack`, so
the operand-stack bound holds exactly for bytecode whose static stack
requirement is within `max_stack`: under that hypothesis, every
executed prefix of the method's code leaves the operand stack within
`max_stack`. -/
theorem operand_stack_bounded_when_bytecode_verified (m : Avm2Stack.MethodBody)
    (hreq : Avm2Stack.requiredStack m.code ≤ m.maxStack)
    (pre post : List Avm2Stack.Op) (hsplit : m.code = pre ++ post) :
    (Avm2Stack.exec [] pre).length ≤ m.maxStack := by
  refine Avm2Stack.exec_prefix_le m.maxStack pre post [] ?_ (by simp)
  intro h hmem
  refine le_trans (Avm2Stack.le_foldr_max ?_) hreq
  simpa [Avm2Stack.requiredStack, hsplit] using hmem

/-- Witness for C3: a method with `max_stack = 2` whose code pushes
twice then pops keeps the stack within 2 after its two-push prefix. -/
theorem operand_stack_bounded_witness :
    (Avm2Stack.exec [] [.pushByte 7, .pushTrue]).length ≤
      (Avm2Stack.MethodBody.mk 2 [.pushByte 7, .pushTrue, .pop]).maxStack :=
  operand_stack_bounded_when_bytecode_verified
    (Avm2Stack.MethodBody.mk 2 [.pushByte 7, .pushTrue, .pop]) (by decide)
    [.pushByte 7, .pushTrue] [.pop] rfl

/-- Counterexample to C3 as stated: a method body with `max_stack = 0`
whose single instruction is `pushbyte` executes unchecked and leaves
the operand stack at depth 1 > `max_stack`. -/
theorem operand_stack_exceeds_max_stack :
    (Avm2Stack.MethodBody.mk 0 [.pushByte 1]).maxStack <
      (Avm2Stack.exec [] (Avm2Stack.MethodBody.mk 0 [.pushByte 1]).code).length := by
  decide

/-- Claim C10: `op_dup` always succeeds: on a non-empty stack it pushes
a copy of the top value, and on an empty stack it pushes `undefined`. -/
theorem op_dup_total_behavior (s : List Avm2Stack.V2Value)
    (v : Avm2Stack.V2Value) :
    Avm2Stack.opDup (s ++ [v]) = .ok (s ++ [v, v]) ∧
      Avm2Stack.opDup [] = .ok [.undefined] ∧
      ∃ t, Avm2Stack.opDup s = .ok t := by
  refine ⟨?_, rfl, ⟨_, rfl⟩⟩
  simp [Avm2Stack.opDup, Avm2Stack.push]

/-- Claim C2 (amended): when no scope on the stack resolves the
multiname, `findpropstrict` fails with a "property does not exist"
error while the non-strict `findproperty` pushes `undefined` (not the
global object). -/
theorem find_property_unresolved_behavior (scopes : List FindProp.ScopeFrame)
    (name : String)
    (h : ∀ f ∈ scopes, FindProp.resolvesAgainst f name = false) :
    FindProp.opFindProperty scopes name = .undefined ∧
      FindProp.opFindPropStrict scopes name =
        .error ("Property does not exist: " ++ name) := by
  have hfind := FindProp.find_eq_none h
  constructor
  · simp [FindProp.opFindProperty, hfind]
  · simp [FindProp.opFindPropStrict, hfind]

/-- Witness for C2: one ordinary scope declaring only `x`; resolving
`y` pushes `undefined` non-strictly and errors strictly. -/
theorem find_property_unresolved_witness :
    FindProp.opFindProperty [⟨⟨["x"], ["x"]⟩, false⟩] "y" = .undefined ∧
      FindProp.opFindPropStrict [⟨⟨["x"], ["x"]⟩, false⟩] "y" =
        .error ("Property does not exist: " ++ "y") :=
  find_property_unresolved_behavior [⟨⟨["x"], ["x"]⟩, false⟩] "y" (by decide)

/-- Counterexample to C2 as stated: with an unresolvable multiname the
non-strict opcode pushes `undefined`, which is not the global object
(here a global with a trait `g`). -/
theorem find_property_unresolved_not_global :
    FindProp.opFindProperty [⟨⟨["x"], ["x"]⟩, false⟩] "y" = .undefined ∧
      FindProp.FoundValue.undefined ≠ .object ⟨["g"], ["g"]⟩ := by
  exact ⟨by decide, by decide⟩

/-- Claim C8: `setMonth(undefined, 3)` on a valid date stores no
instant and returns NaN — `undefined` coerces to the non-finite NaN,
which aborts `calculate` — and in general a specified non-finite month
or day makes the adjustment store no instant and return NaN, for every
current date and every calendar constructor. -/
theorem set_month_non_finite_invalidates (cur : DateNs.DateRecord)
    (mk : Int → Int → Int → Option Int) (q : ℚ) :
    DateNs.setMonth (some cur) [.undefined, .num (.fin 3)] mk =
        (none, .nonFinite) ∧
      DateNs.setMonth (some cur) [.num .nonFinite, .num (.fin q)] mk =
        (none, .nonFinite) ∧
      DateNs.setMonth (some cur) [.num (.fin q), .num .nonFinite] mk =
        (none, .nonFinite) := by
  refine ⟨?_, ?_, ?_⟩ <;>
    simp [DateNs.setMonth, DateNs.DateAdjustment.setMonthField,
      DateNs.DateAdjustment.setDayField, DateNs.applyAdj, DateNs.calculate,
      DateNs.checkValue, DateNs.checkMappedValue, DateNs.coerceToNumber,
      Option.bind]

/-- Claim C9: the `ContextMenuItem` constructor stores the separator
flag under `separatorBefore`, while `copy` reads `separator_before`,
which is `undefined` on every constructor-built item; hence every copy
has `separatorBefore = false` regardless of the original's flag. -/
theorem context_menu_item_copy_separator_false (caption : String)
    (cb : Option Nat) (sep en vis : Option CtxMenu.CVal)
    (strCase : String → Bool) (freshId : Nat) :
    CtxMenu.getProp (CtxMenu.construct caption cb sep en vis strCase)
        "separator_before" = .undefined ∧
      CtxMenu.getProp
        (CtxMenu.copy (CtxMenu.construct caption cb sep en vis strCase)
          strCase freshId) "separatorBefore" = .boolean false := by
  cases cb <;>
    simp [CtxMenu.construct, CtxMenu.copy, CtxMenu.getProp, CtxMenu.setProp,
      CtxMenu.asBool, CtxMenu.coerceStr, List.find?]

end RuffleSpec
